import Mathlib

/-!
# Verification of the voice-rtc-bench probe/reply correlation core

A shallow embedding of the benchmark runner's statistics reduction
(`src/benchmark-runner/src/stats.py`), the probe correlator
(`src/benchmark_runner/runners/base.py`), the LiveKit runner's inline
reply handler (`src/benchmark_runner/runners/livekit.py`), and the
configuration bounds (`src/benchmark-runner/src/types.py`).

Python floats are modelled as exact rationals (`ℚ`); `math.sqrt` is
modelled as `Real.sqrt`. Python `dict[float, float]` is modelled as an
insertion-ordered association list with unique keys.
-/

namespace VoiceRtcBench

/-- `LatencyMeasurement` from `types.py` lines 27-34: one successful
round-trip sample. -/
structure LatencyMeasurement where
  round_trip_time : ℚ
  client_to_server : ℚ
  server_to_client : ℚ
  message_number : ℤ
  timestamp : ℚ
deriving DecidableEq, Repr

/-- `BenchmarkStatistics` from `types.py` lines 37-56. `std_dev_rtt` is a
real number because the source computes it with `math.sqrt`. -/
structure BenchmarkStatistics where
  total_messages : ℤ
  successful_messages : ℤ
  failed_messages : ℤ
  packet_loss_rate : ℚ
  mean_rtt : ℚ
  median_rtt : ℚ
  min_rtt : ℚ
  max_rtt : ℚ
  std_dev_rtt : ℝ
  p50_rtt : ℚ
  p95_rtt : ℚ
  p99_rtt : ℚ
  jitter : ℚ

/-- `PongMessage` from `types.py` lines 17-24 (after schema validation). -/
structure PongMessage where
  type : String
  client_timestamp : ℚ
  server_receive_time : ℚ
  server_send_time : ℚ
  message_count : ℤ
deriving DecidableEq, Repr

/-- `_mean` from `stats.py` lines 66-70. -/
def _mean (numbers : List ℚ) : ℚ :=
  if numbers.length = 0 then 0 else numbers.sum / numbers.length

/-- `_standard_deviation` from `stats.py` lines 73-81: square root of the
mean of squared deviations from the mean. -/
noncomputable def _standard_deviation (numbers : List ℚ) : ℝ :=
  if numbers.length = 0 then 0
  else
    let avg := _mean numbers
    let square_diffs := numbers.map (fun value => (value - avg) ^ 2)
    let avg_square_diff := _mean square_diffs
    Real.sqrt (avg_square_diff : ℝ)

/-- `_percentile` from `stats.py` lines 84-110. Python's `index % 1` on a
nonnegative float is the fractional part, `Int.fract`. Python's
`sorted_numbers[-1]` is the last element; `lower` and `upper` are
nonnegative here, so integer indexing is `List.getD` at `Int.toNat`. -/
def _percentile (sorted_numbers : List ℚ) (p : ℚ) : ℚ :=
  if sorted_numbers.length = 0 then 0
  else if p ≤ 0 then sorted_numbers.headD 0
  else if 100 ≤ p then sorted_numbers.getLastD 0
  else
    let index : ℚ := (p / 100) * ((sorted_numbers.length : ℚ) - 1)
    let lower : ℤ := ⌊index⌋
    let upper : ℤ := ⌈index⌉
    let weight : ℚ := Int.fract index
    if lower = upper then sorted_numbers.getD lower.toNat 0
    else
      sorted_numbers.getD lower.toNat 0 * (1 - weight)
        + sorted_numbers.getD upper.toNat 0 * weight

/-- `_calculate_jitter` from `stats.py` lines 113-130: mean absolute
difference between consecutive RTTs in arrival order. The Python list
comprehension `[abs(rtts[i] - rtts[i-1]) for i in range(1, len(rtts))]`
pairs each element with its successor. -/
def _calculate_jitter (rtts : List ℚ) : ℚ :=
  if rtts.length < 2 then 0
  else _mean (List.zipWith (fun prev cur => |cur - prev|) rtts rtts.tail)

/-- Python's built-in `min` on a nonempty list. -/
def listMin (l : List ℚ) : ℚ :=
  match l with
  | [] => 0
  | x :: xs => xs.foldl min x

/-- Python's built-in `max` on a nonempty list. -/
def listMax (l : List ℚ) : ℚ :=
  match l with
  | [] => 0
  | x :: xs => xs.foldl max x

/-- `calculate_statistics` from `stats.py` lines 11-63. Python's
`sorted(rtts)` is an ascending stable sort, modelled with
`List.insertionSort`. -/
noncomputable def calculate_statistics
    (measurements : List LatencyMeasurement) (total_attempts : ℤ) :
    BenchmarkStatistics :=
  let successful : ℤ := measurements.length
  let failed : ℤ := total_attempts - successful
  let packet_loss_rate : ℚ :=
    if 0 < total_attempts then (failed : ℚ) / (total_attempts : ℚ) else 0
  if successful = 0 then
    { total_messages := total_attempts
      successful_messages := 0
      failed_messages := failed
      packet_loss_rate := packet_loss_rate
      mean_rtt := 0
      median_rtt := 0
      min_rtt := 0
      max_rtt := 0
      std_dev_rtt := 0
      p50_rtt := 0
      p95_rtt := 0
      p99_rtt := 0
      jitter := 0 }
  else
    let rtts := measurements.map (·.round_trip_time)
    let sorted_rtts := rtts.insertionSort (· ≤ ·)
    { total_messages := total_attempts
      successful_messages := successful
      failed_messages := failed
      packet_loss_rate := packet_loss_rate
      mean_rtt := _mean rtts
      median_rtt := _percentile sorted_rtts 50
      min_rtt := listMin rtts
      max_rtt := listMax rtts
      std_dev_rtt := _standard_deviation rtts
      p50_rtt := _percentile sorted_rtts 50
      p95_rtt := _percentile sorted_rtts 95
      p99_rtt := _percentile sorted_rtts 99
      jitter := _calculate_jitter rtts }

/-- Modelled from the spec's words, for comparison with `_percentile` at
`p = 50`: the conventional median of an ascending-sorted list — the middle
element for odd length, the average of the two middle elements for even
length. -/
def conventionalMedian (sorted_numbers : List ℚ) : ℚ :=
  if sorted_numbers.length % 2 = 1 then
    sorted_numbers.getD (sorted_numbers.length / 2) 0
  else
    (sorted_numbers.getD (sorted_numbers.length / 2 - 1) 0
      + sorted_numbers.getD (sorted_numbers.length / 2) 0) / 2

example : _percentile [1, 2, 3] 50 = 2 := by norm_num [_percentile]
example : _percentile [1, 2, 3, 4] 50 = 5 / 2 := by
  have hc : ⌈(3 / 2 : ℚ)⌉ = 2 := by rw [Int.ceil_eq_iff]; norm_num
  norm_num [_percentile, Int.fract, hc, show Int.toNat 2 = 2 from rfl]
example : _percentile [1, 2, 3, 4] 0 = 1 := by norm_num [_percentile]
example : _percentile [1, 2, 3, 4] 100 = 4 := by norm_num [_percentile]
example : _calculate_jitter [10, 10, 10] = 0 := by norm_num [_calculate_jitter, _mean]
example : _calculate_jitter [10, 20, 10] = 10 := by norm_num [_calculate_jitter, _mean]
example : conventionalMedian [1, 2, 3, 4] = 5 / 2 := by norm_num [conventionalMedian]

/-! ## The probe correlator (`benchmark_runner/runners/base.py`)

The runner's mutable state is `self.measurements`, `self.pending_pings`
(a Python `dict[float, float]` mapping the probe timestamp to its send
time) and `self.total_attempts`. The dict is modelled as an
insertion-ordered association list; its keys are unique because insertion
overwrites an existing key. -/

/-- Benchmark state owned by `BaseBenchmarkRunner` (`base.py` lines 27-31). -/
structure RunnerState where
  measurements : List LatencyMeasurement
  pending_pings : List (ℚ × ℚ)
  total_attempts : ℤ
deriving DecidableEq, Repr

/-- Python `dict` lookup `d.get(k)` / the lookup half of `d.pop(k, None)`. -/
def dictLookup (m : List (ℚ × ℚ)) (k : ℚ) : Option ℚ :=
  (m.find? (fun e => decide (e.1 = k))).map (·.2)

/-- The removal half of Python `d.pop(k, None)`: drop the entry keyed `k`
(keys are unique, so dropping every entry keyed `k` is the same; when `k`
is absent the dict is unchanged). -/
def dictErase (m : List (ℚ × ℚ)) (k : ℚ) : List (ℚ × ℚ) :=
  m.filter (fun e => decide (e.1 ≠ k))

/-- Python `d[k] = v`: overwrite in place when `k` is present, else append. -/
def dictInsert (m : List (ℚ × ℚ)) (k v : ℚ) : List (ℚ × ℚ) :=
  if (m.find? (fun e => decide (e.1 = k))).isSome then
    m.map (fun e => if e.1 = k then (k, v) else e)
  else m ++ [(k, v)]

/-- `handle_pong_message` from `base.py` lines 65-108, over an
already-validated `PongMessage` and the receive instant captured at line
81. Non-`"pong"` messages return at line 79; `pending_pings.pop` at line
84 finds and removes the matching ping; when it finds one, lines 87-100
append a `LatencyMeasurement` whose `message_number` is the sample count
before the append plus one. -/
def handle_pong_message (s : RunnerState) (pong : PongMessage)
    (receive_time : ℚ) : RunnerState :=
  if pong.type ≠ "pong" then s
  else
    match dictLookup s.pending_pings pong.client_timestamp with
    | none => s
    | some send_time =>
      let round_trip_time := receive_time - send_time
      let client_to_server := pong.server_receive_time - pong.client_timestamp
      let server_to_client := receive_time - pong.server_send_time
      let measurement : LatencyMeasurement :=
        { round_trip_time := round_trip_time
          client_to_server := client_to_server
          server_to_client := server_to_client
          message_number := s.measurements.length + 1
          timestamp := receive_time }
      { s with
        pending_pings := dictErase s.pending_pings pong.client_timestamp
        measurements := s.measurements ++ [measurement] }

/-- `LiveKitBenchmarkRunner._handle_data_received` from `livekit.py` lines
36-74, over the decoded message (JSON decoding and the transport callback
are outside the core): line 45 checks the type tag first, line 46 captures
the receive instant, line 47 validates, lines 50-66 match and append
exactly as the base runner does. -/
def _handle_data_received (s : RunnerState) (pong : PongMessage)
    (receive_time : ℚ) : RunnerState :=
  if pong.type = "pong" then
    match dictLookup s.pending_pings pong.client_timestamp with
    | none => s
    | some send_time =>
      let round_trip_time := receive_time - send_time
      let client_to_server := pong.server_receive_time - pong.client_timestamp
      let server_to_client := receive_time - pong.server_send_time
      let measurement : LatencyMeasurement :=
        { round_trip_time := round_trip_time
          client_to_server := client_to_server
          server_to_client := server_to_client
          message_number := s.measurements.length + 1
          timestamp := receive_time }
      { s with
        pending_pings := dictErase s.pending_pings pong.client_timestamp
        measurements := s.measurements ++ [measurement] }
  else s

/-! ## The run lifecycle (`base.py` `run_benchmark`, lines 110-189) -/

/-- The state reset at the start of `run_benchmark` (lines 122-124). -/
def initialState : RunnerState :=
  { measurements := [], pending_pings := [], total_attempts := 0 }

/-- One iteration of the sending loop (`base.py` lines 130-147): the probe
keyed by its timestamp is registered under `pending_pings` and
`total_attempts` is incremented (lines 141-142). -/
def registerPing (s : RunnerState) (timestamp send_time : ℚ) : RunnerState :=
  { s with
    pending_pings := dictInsert s.pending_pings timestamp send_time
    total_attempts := s.total_attempts + 1 }

/-- The sending phase: the loop over `config.iterations` probes, each a
(timestamp, send time) pair captured at lines 131-132. -/
def sendPhase (probes : List (ℚ × ℚ)) : RunnerState :=
  probes.foldl (fun s p => registerPing s p.1 p.2) initialState

/-- Replies delivered by the transport callback, each handled by
`handle_pong_message` with its receive instant. -/
def processReplies (s : RunnerState) (replies : List (PongMessage × ℚ)) :
    RunnerState :=
  replies.foldl (fun s r => handle_pong_message s r.1 r.2) s

/-- The drain loop (`base.py` lines 150-159): it polls
`len(self.pending_pings)` until it reaches zero or the elapsed time
exceeds `config.timeout_ms`; its body only sleeps and re-checks, and on
timeout it merely breaks — it never mutates the correlator state, so its
effect on the state is the identity. -/
def drainLoopExit (s : RunnerState) : RunnerState := s

/-- A whole run's correlator state: reset, send every probe, handle the
replies that arrive, leave the drain loop. -/
def runModel (probes : List (ℚ × ℚ)) (replies : List (PongMessage × ℚ)) :
    RunnerState :=
  drainLoopExit (processReplies (sendPhase probes) replies)

/-- The correlation keys the reply trace can match: the `client_timestamp`
of each reply that carries the `"pong"` type tag. -/
def matchedKeys (replies : List (PongMessage × ℚ)) : List ℚ :=
  (replies.filter (fun r => decide (r.1.type = "pong"))).map
    (fun r => r.1.client_timestamp)

/-! ## Configuration bounds (`benchmark-runner/src/types.py` lines 81-88) -/

/-- The pydantic field constraints of `BenchmarkConfig` (`types.py` lines
84-86): `iterations ∈ [10, 10000]`, `timeout_ms ∈ [1000, 30000]`,
`cooldown_ms ∈ [0, 5000]`. -/
def benchmarkConfigValid (iterations timeout_ms cooldown_ms : ℤ) : Bool :=
  10 ≤ iterations && iterations ≤ 10000
    && 1000 ≤ timeout_ms && timeout_ms ≤ 30000
    && 0 ≤ cooldown_ms && cooldown_ms ≤ 5000

/-- A validated `BenchmarkConfig`. -/
structure BenchmarkConfig where
  iterations : ℤ
  timeout_ms : ℤ
  cooldown_ms : ℤ
deriving DecidableEq, Repr

/-- Constructing a `BenchmarkConfig`: pydantic validates the field bounds
at construction and raises a `ValidationError` (the spec's
`ConfigurationError`) when any bound fails, before any benchmark code
runs. -/
def mkBenchmarkConfig (iterations timeout_ms cooldown_ms : ℤ) :
    Option BenchmarkConfig :=
  if benchmarkConfigValid iterations timeout_ms cooldown_ms then
    some { iterations := iterations, timeout_ms := timeout_ms,
           cooldown_ms := cooldown_ms }
  else none

/-- A run launched from raw configuration values: the configuration is
constructed (and validated) first; only with a validated configuration
does `run_benchmark` touch any benchmark state. -/
def runWithRawConfig (iterations timeout_ms cooldown_ms : ℤ)
    (probes : List (ℚ × ℚ)) (replies : List (PongMessage × ℚ)) :
    Option RunnerState :=
  (mkBenchmarkConfig iterations timeout_ms cooldown_ms).map
    (fun _ => runModel probes replies)

/-! ## Helper lemmas -/

/-- Looking up a key just erased finds nothing. -/
theorem dictLookup_dictErase_self (m : List (ℚ × ℚ)) (k : ℚ) :
    dictLookup (dictErase m k) k = none := by
  simp only [dictLookup, dictErase, Option.map_eq_none', List.find?_eq_none]
  intro e he
  have := List.of_mem_filter he
  simpa using this

/-- A concrete measurement used to instantiate hypotheses in witnesses. -/
def sampleMeasurement : LatencyMeasurement :=
  { round_trip_time := 50, client_to_server := 20, server_to_client := 30,
    message_number := 1, timestamp := 1000 }

/-- A concrete matched pong used to instantiate hypotheses in witnesses. -/
def samplePong : PongMessage :=
  { type := "pong", client_timestamp := 100, server_receive_time := 105,
    server_send_time := 110, message_count := 1 }

/-- A concrete correlator state with one outstanding probe keyed `100`. -/
def sampleState : RunnerState :=
  { measurements := [], pending_pings := [(100, 90)], total_attempts := 1 }

/-! ## Claims -/

/-- C1: for every sample list and every `totalAttempts`, the statistics
reduction returns `successfulCount` equal to the length of the sample
list, `failedCount` equal to `totalAttempts` minus `successfulCount`, and
`packetLossRate` equal to `failedCount / totalAttempts` when
`totalAttempts > 0` and `0.0` when `totalAttempts == 0`. -/
theorem calculate_statistics_counts (measurements : List LatencyMeasurement)
    (total_attempts : ℤ) :
    (calculate_statistics measurements total_attempts).successful_messages
        = measurements.length
    ∧ (calculate_statistics measurements total_attempts).failed_messages
        = total_attempts - measurements.length
    ∧ (0 < total_attempts →
        (calculate_statistics measurements total_attempts).packet_loss_rate
          = ((total_attempts : ℚ) - (measurements.length : ℚ))
              / (total_attempts : ℚ))
    ∧ (total_attempts = 0 →
        (calculate_statistics measurements total_attempts).packet_loss_rate
          = 0) := by
  unfold calculate_statistics
  by_cases h : (measurements.length : ℤ) = 0
  · rw [if_pos h]
    refine ⟨h.symm, rfl, fun hpos => ?_, fun hzero => ?_⟩
    · show (if 0 < total_attempts then _ else _) = _
      rw [if_pos hpos]; push_cast; ring
    · show (if 0 < total_attempts then _ else _) = _
      rw [if_neg (by omega)]
  · rw [if_neg h]
    refine ⟨rfl, rfl, fun hpos => ?_, fun hzero => ?_⟩
    · show (if 0 < total_attempts then _ else _) = _
      rw [if_pos hpos]; push_cast; ring
    · show (if 0 < total_attempts then _ else _) = _
      rw [if_neg (by omega)]

/-- Witness for C1 at a singleton sample list and five attempts. -/
theorem calculate_statistics_counts_witness :
    (calculate_statistics [sampleMeasurement] 5).successful_messages = 1
    ∧ (calculate_statistics [sampleMeasurement] 5).packet_loss_rate
        = ((5 : ℚ) - (([sampleMeasurement] : List LatencyMeasurement).length : ℚ))
            / (5 : ℚ) := by
  refine ⟨?_, ?_⟩
  · have := (calculate_statistics_counts [sampleMeasurement] 5).1
    simpa using this
  · exact (calculate_statistics_counts [sampleMeasurement] 5).2.2.1 (by norm_num)

/-- C6: for every `totalAttempts`, when the sample list is empty the
statistics reduction returns `0.0` for every RTT-derived field, and
`packetLossRate` equals `1.0` whenever `totalAttempts > 0`. -/
theorem calculate_statistics_empty (total_attempts : ℤ) :
    (calculate_statistics [] total_attempts).mean_rtt = 0
    ∧ (calculate_statistics [] total_attempts).median_rtt = 0
    ∧ (calculate_statistics [] total_attempts).min_rtt = 0
    ∧ (calculate_statistics [] total_attempts).max_rtt = 0
    ∧ (calculate_statistics [] total_attempts).std_dev_rtt = 0
    ∧ (calculate_statistics [] total_attempts).p50_rtt = 0
    ∧ (calculate_statistics [] total_attempts).p95_rtt = 0
    ∧ (calculate_statistics [] total_attempts).p99_rtt = 0
    ∧ (calculate_statistics [] total_attempts).jitter = 0
    ∧ (0 < total_attempts →
        (calculate_statistics [] total_attempts).packet_loss_rate = 1) := by
  unfold calculate_statistics
  rw [if_pos (by simp)]
  refine ⟨rfl, rfl, rfl, rfl, rfl, rfl, rfl, rfl, rfl, fun hpos => ?_⟩
  show (if 0 < total_attempts then _ else _) = _
  rw [if_pos hpos]
  push_cast
  simp only [List.length_nil, Nat.cast_zero, sub_zero]
  exact div_self (by exact_mod_cast hpos.ne')

/-- Witness for C6 at seven attempts. -/
theorem calculate_statistics_empty_witness :
    (calculate_statistics [] 7).std_dev_rtt = 0
    ∧ (calculate_statistics [] 7).packet_loss_rate = 1 := by
  exact ⟨(calculate_statistics_empty 7).2.2.2.2.1,
    (calculate_statistics_empty 7).2.2.2.2.2.2.2.2.2 (by norm_num)⟩

/-- C3: for every reply whose correlation id is present in the outstanding
map, the reply handler removes that entry and appends exactly one sample
with `roundTrip = receiveInstant - sendInstant`,
`clientToServer = serverReceiveInstant - correlationId`,
`serverToClient = receiveInstant - serverSendInstant`, and
`arrivalSequence` = the count of samples already appended plus one. -/
theorem handle_pong_matched (s : RunnerState) (pong : PongMessage)
    (receive_time send_time : ℚ)
    (htype : pong.type = "pong")
    (hfound : dictLookup s.pending_pings pong.client_timestamp
      = some send_time) :
    handle_pong_message s pong receive_time
      = { measurements := s.measurements
            ++ [{ round_trip_time := receive_time - send_time
                  client_to_server :=
                    pong.server_receive_time - pong.client_timestamp
                  server_to_client := receive_time - pong.server_send_time
                  message_number := s.measurements.length + 1
                  timestamp := receive_time }]
          pending_pings := dictErase s.pending_pings pong.client_timestamp
          total_attempts := s.total_attempts }
    ∧ dictLookup (handle_pong_message s pong receive_time).pending_pings
        pong.client_timestamp = none := by
  have hstep : handle_pong_message s pong receive_time
      = { measurements := s.measurements
            ++ [{ round_trip_time := receive_time - send_time
                  client_to_server :=
                    pong.server_receive_time - pong.client_timestamp
                  server_to_client := receive_time - pong.server_send_time
                  message_number := s.measurements.length + 1
                  timestamp := receive_time }]
          pending_pings := dictErase s.pending_pings pong.client_timestamp
          total_attempts := s.total_attempts } := by
    unfold handle_pong_message
    rw [if_neg (by simp [htype]), hfound]
  exact ⟨hstep, by rw [hstep]; exact dictLookup_dictErase_self _ _⟩

/-- Witness for C3: the matched pong keyed `100` against the state holding
the outstanding probe `(100, 90)`. -/
theorem handle_pong_matched_witness :
    samplePong.type = "pong"
    ∧ dictLookup sampleState.pending_pings samplePong.client_timestamp
        = some 90
    ∧ handle_pong_message sampleState samplePong 120
      = { measurements := sampleState.measurements
            ++ [{ round_trip_time := 120 - 90
                  client_to_server :=
                    samplePong.server_receive_time - samplePong.client_timestamp
                  server_to_client := 120 - samplePong.server_send_time
                  message_number := sampleState.measurements.length + 1
                  timestamp := 120 }]
          pending_pings := dictErase sampleState.pending_pings
            samplePong.client_timestamp
          total_attempts := sampleState.total_attempts } := by
  refine ⟨rfl, rfl, ?_⟩
  exact (handle_pong_matched sampleState samplePong 120 90 rfl rfl).1

/-- C4: for every reply whose correlation id is not in the outstanding
map, the reply handler leaves the correlator state — sample list,
outstanding map and attempt counter — unchanged (the embedded handler is
total, so no error is raised). -/
theorem handle_pong_unmatched (s : RunnerState) (pong : PongMessage)
    (receive_time : ℚ)
    (hnone : dictLookup s.pending_pings pong.client_timestamp = none) :
    handle_pong_message s pong receive_time = s := by
  unfold handle_pong_message
  by_cases htype : pong.type = "pong"
  · rw [if_neg (by simp [htype]), hnone]
  · rw [if_pos (by simp [htype])]

/-- Witness for C4: the spec's unregistered correlation id `999` against
the state holding only the probe keyed `100`. -/
theorem handle_pong_unmatched_witness :
    dictLookup sampleState.pending_pings (999 : ℚ) = none
    ∧ handle_pong_message sampleState
        { type := "pong", client_timestamp := 999, server_receive_time := 1005,
          server_send_time := 1010, message_count := 2 } 120
      = sampleState := by
  refine ⟨by norm_num [dictLookup, sampleState], ?_⟩
  exact handle_pong_unmatched sampleState
    { type := "pong", client_timestamp := 999, server_receive_time := 1005,
      server_send_time := 1010, message_count := 2 } 120
    (by norm_num [dictLookup, sampleState])

/-- C10: for every valid pong reply whose correlation id is outstanding,
the LiveKit runner's inline data-received handler and the shared base
runner's pong handler produce the same sample and the same correlator
state update, given the same prior state and the same receive instant. -/
theorem livekit_base_handler_agree (s : RunnerState) (pong : PongMessage)
    (receive_time send_time : ℚ)
    (htype : pong.type = "pong")
    (hfound : dictLookup s.pending_pings pong.client_timestamp
      = some send_time) :
    _handle_data_received s pong receive_time
        = handle_pong_message s pong receive_time
    ∧ (_handle_data_received s pong receive_time).measurements
        = s.measurements
            ++ [{ round_trip_time := receive_time - send_time
                  client_to_server :=
                    pong.server_receive_time - pong.client_timestamp
                  server_to_client := receive_time - pong.server_send_time
                  message_number := s.measurements.length + 1
                  timestamp := receive_time }] := by
  have heq : _handle_data_received s pong receive_time
      = handle_pong_message s pong receive_time := by
    unfold _handle_data_received handle_pong_message
    rw [if_pos htype, if_neg (by simp [htype])]
  refine ⟨heq, ?_⟩
  rw [heq]
  unfold handle_pong_message
  rw [if_neg (by simp [htype]), hfound]

/-- Witness for C10: both handlers on the matched pong keyed `100` against
the state holding the outstanding probe `(100, 90)`. -/
theorem livekit_base_handler_agree_witness :
    samplePong.type = "pong"
    ∧ dictLookup sampleState.pending_pings samplePong.client_timestamp
        = some 90
    ∧ _handle_data_received sampleState samplePong 125
        = handle_pong_message sampleState samplePong 125 := by
  exact ⟨rfl, rfl,
    (livekit_base_handler_agree sampleState samplePong 125 90 rfl rfl).1⟩

/-- The reply handler's effect on the outstanding map: a `"pong"` reply
removes exactly the entry keyed by its `client_timestamp` (nothing when
the key is absent); any other message leaves the map alone. -/
theorem pending_handle_pong (s : RunnerState) (pong : PongMessage)
    (receive_time : ℚ) :
    (handle_pong_message s pong receive_time).pending_pings
      = if pong.type = "pong" then
          s.pending_pings.filter
            (fun e => decide (e.1 ≠ pong.client_timestamp))
        else s.pending_pings := by
  unfold handle_pong_message
  by_cases htype : pong.type = "pong"
  · rw [if_neg (by simp [htype]), if_pos htype]
    cases hfind : dictLookup s.pending_pings pong.client_timestamp with
    | none =>
      refine (List.filter_eq_self.mpr fun e he => ?_).symm
      simp only [dictLookup, Option.map_eq_none', List.find?_eq_none] at hfind
      simpa using hfind e he
    | some send_time => rfl
  · rw [if_pos (by simp [htype]), if_neg htype]

/-- Processing a reply trace filters the outstanding map down to the
entries whose key no pong reply in the trace carries. -/
theorem processReplies_pending (replies : List (PongMessage × ℚ))
    (s : RunnerState) :
    (processReplies s replies).pending_pings
      = s.pending_pings.filter
          (fun e => decide (e.1 ∉ matchedKeys replies)) := by
  induction replies generalizing s with
  | nil => simp [processReplies, matchedKeys]
  | cons r rs ih =>
    have hstep : processReplies s (r :: rs)
        = processReplies (handle_pong_message s r.1 r.2) rs := rfl
    rw [hstep, ih, pending_handle_pong]
    by_cases htype : r.1.type = "pong"
    · rw [if_pos htype]
      have hkeys : matchedKeys (r :: rs)
          = r.1.client_timestamp :: matchedKeys rs := by
        simp [matchedKeys, htype]
      rw [hkeys, List.filter_filter]
      refine List.filter_congr fun e _ => ?_
      simp only [List.mem_cons, not_or, Bool.decide_and, decide_not]
      cases hk : decide (e.1 = r.1.client_timestamp) <;>
        cases hm : decide (e.1 ∈ matchedKeys rs) <;> rfl
    · rw [if_neg htype]
      have hkeys : matchedKeys (r :: rs) = matchedKeys rs := by
        simp [matchedKeys, htype]
      rw [hkeys]

/-- C5, counterexample: a run of ten probes none of which is answered —
the drain loop breaks on its timeout without removing anything, so after
Draining completes the outstanding map still holds every probe, against
the claim that no probe from the run remains. -/
theorem drain_leaves_pending_counterexample :
    (runModel [(1, 1), (2, 2), (3, 3), (4, 4), (5, 5), (6, 6), (7, 7),
        (8, 8), (9, 9), (10, 10)] []).pending_pings ≠ [] := by
  decide

/-- C5, amended: a probe is removed from the outstanding map at most once
and only by a matching reply; the drain loop itself removes nothing, so
after Draining completes the outstanding map holds exactly the registered
probes whose key no pong reply matched. -/
theorem pending_removed_only_on_match (probes : List (ℚ × ℚ))
    (replies : List (PongMessage × ℚ)) :
    (runModel probes replies).pending_pings
      = (sendPhase probes).pending_pings.filter
          (fun e => decide (e.1 ∉ matchedKeys replies)) := by
  unfold runModel drainLoopExit
  exact processReplies_pending replies (sendPhase probes)

/-- C9: a configuration outside any of the three bounds fails validation
at construction — before any benchmark state exists or any probe is
registered — while every configuration inside all three bounds passes. -/
theorem config_bounds_validated (iterations timeout_ms cooldown_ms : ℤ) :
    (¬ ((10 ≤ iterations ∧ iterations ≤ 10000)
        ∧ (1000 ≤ timeout_ms ∧ timeout_ms ≤ 30000)
        ∧ (0 ≤ cooldown_ms ∧ cooldown_ms ≤ 5000)) →
      mkBenchmarkConfig iterations timeout_ms cooldown_ms = none
      ∧ ∀ probes replies,
          runWithRawConfig iterations timeout_ms cooldown_ms probes replies
            = none)
    ∧ (((10 ≤ iterations ∧ iterations ≤ 10000)
        ∧ (1000 ≤ timeout_ms ∧ timeout_ms ≤ 30000)
        ∧ (0 ≤ cooldown_ms ∧ cooldown_ms ≤ 5000)) →
      (mkBenchmarkConfig iterations timeout_ms cooldown_ms).isSome) := by
  have hvalid : benchmarkConfigValid iterations timeout_ms cooldown_ms = true
      ↔ ((10 ≤ iterations ∧ iterations ≤ 10000)
          ∧ (1000 ≤ timeout_ms ∧ timeout_ms ≤ 30000)
          ∧ (0 ≤ cooldown_ms ∧ cooldown_ms ≤ 5000)) := by
    simp only [benchmarkConfigValid, Bool.and_eq_true, decide_eq_true_eq]
    tauto
  constructor
  · intro h
    have hfalse : ¬ benchmarkConfigValid iterations timeout_ms cooldown_ms
        = true := fun hc => h (hvalid.mp hc)
    have hnone : mkBenchmarkConfig iterations timeout_ms cooldown_ms
        = none := by
      unfold mkBenchmarkConfig
      rw [if_neg hfalse]
    exact ⟨hnone, fun probes replies => by
      unfold runWithRawConfig
      rw [hnone]
      rfl⟩
  · intro h
    unfold mkBenchmarkConfig
    rw [if_pos (hvalid.mpr h)]
    rfl

/-- Witness for C9: iterations `5` is below the lower bound and is
rejected; the defaults `(100, 5000, 100)` are accepted. -/
theorem config_bounds_validated_witness :
    mkBenchmarkConfig 5 2000 100 = none
    ∧ (mkBenchmarkConfig 100 5000 100).isSome := by
  refine ⟨((config_bounds_validated 5 2000 100).1 (by norm_num)).1, ?_⟩
  exact (config_bounds_validated 100 5000 100).2 (by norm_num)

/-- C7: for every RTT list in arrival order, jitter equals the mean of the
absolute differences between consecutive elements of the un-sorted list
when the list has at least 2 elements, and `0.0` otherwise; in particular
`jitter([10,10,10]) == 0` and `jitter([10,20,10]) == 10`. -/
theorem jitter_mean_consecutive_abs_diffs (l : List ℚ) :
    (2 ≤ l.length →
      _calculate_jitter l
        = (List.zipWith (fun prev cur => |cur - prev|) l l.tail).sum
            / ((l.length : ℚ) - 1))
    ∧ (l.length < 2 → _calculate_jitter l = 0)
    ∧ _calculate_jitter [10, 10, 10] = 0
    ∧ _calculate_jitter [10, 20, 10] = 10 := by
  refine ⟨fun h2 => ?_, fun hlt => ?_,
    by norm_num [_calculate_jitter, _mean],
    by norm_num [_calculate_jitter, _mean]⟩
  · unfold _calculate_jitter _mean
    have hlen : (List.zipWith (fun prev cur => |cur - prev|) l l.tail).length
        = l.length - 1 := by
      rw [List.length_zipWith, List.length_tail]
      omega
    rw [if_neg (by omega), hlen, if_neg (by omega),
      Nat.cast_sub (by omega : 1 ≤ l.length), Nat.cast_one]
  · unfold _calculate_jitter
    rw [if_pos hlt]

/-- Witness for C7 at the three-element list `[1, 2, 4]`. -/
theorem jitter_mean_consecutive_abs_diffs_witness :
    2 ≤ ([1, 2, 4] : List ℚ).length
    ∧ _calculate_jitter [1, 2, 4]
        = (List.zipWith (fun prev cur => |cur - prev|)
            ([1, 2, 4] : List ℚ) ([1, 2, 4] : List ℚ).tail).sum
            / ((([1, 2, 4] : List ℚ).length : ℚ) - 1) :=
  ⟨by norm_num, (jitter_mean_consecutive_abs_diffs [1, 2, 4]).1 (by norm_num)⟩

/-- C8: for every non-empty RTT list, the standard deviation is the
population variant — the square root of the mean of squared deviations
from the mean, dividing by `n` rather than `n - 1` — and it equals `0` on
every constant list. -/
theorem stddev_population_variant (l : List ℚ) (hne : l ≠ []) (n : ℕ)
    (c : ℚ) :
    _standard_deviation l
      = Real.sqrt
          (((l.map (fun v => (v - l.sum / (l.length : ℚ)) ^ 2)).sum
            / (l.length : ℚ) : ℚ))
    ∧ _standard_deviation (List.replicate (n + 1) c) = 0 := by
  constructor
  · have hlen0 : ¬ l.length = 0 := fun h => hne (List.length_eq_zero.mp h)
    simp only [_standard_deviation, _mean, List.length_map, if_neg hlen0]
  · have havg : _mean (List.replicate (n + 1) c) = c := by
      have hQ : ((n : ℚ) + 1) ≠ 0 := by positivity
      simp only [_mean, List.length_replicate, List.sum_replicate,
        nsmul_eq_mul, if_neg (Nat.succ_ne_zero n)]
      push_cast
      field_simp
    simp only [_standard_deviation, List.length_replicate,
      if_neg (Nat.succ_ne_zero n), havg, List.map_replicate, sub_self]
    norm_num [_mean, List.sum_replicate]

/-- Witness for C8 at the singleton list `[5]` and the constant list
`replicate 1 5`. -/
theorem stddev_population_variant_witness :
    ([5] : List ℚ) ≠ []
    ∧ (_standard_deviation [5]
        = Real.sqrt
            (((([5] : List ℚ).map
                (fun v => (v - ([5] : List ℚ).sum
                  / ((([5] : List ℚ).length : ℕ) : ℚ)) ^ 2)).sum
              / ((([5] : List ℚ).length : ℕ) : ℚ) : ℚ))
      ∧ _standard_deviation (List.replicate (0 + 1) (5 : ℚ)) = 0) :=
  ⟨by simp, stddev_population_variant [5] (by simp) 0 5⟩

/-- Folding `min` over elements all at least `x` returns `x`. -/
theorem foldl_min_of_le (xs : List ℚ) (x : ℚ) (h : ∀ y ∈ xs, x ≤ y) :
    xs.foldl min x = x := by
  induction xs generalizing x with
  | nil => rfl
  | cons y ys ih =>
    rw [List.foldl_cons, min_eq_left (h y (List.mem_cons_self y ys))]
    exact ih x fun z hz => h z (List.mem_cons_of_mem y hz)

/-- On a nonempty ascending-sorted list, Python's `min` is the head. -/
theorem listMin_sorted (l : List ℚ) (hs : l.Sorted (· ≤ ·)) (hne : l ≠ []) :
    listMin l = l.headD 0 := by
  cases l with
  | nil => cases hne rfl
  | cons x xs =>
    have hx := (List.sorted_cons.mp hs).1
    simp [listMin, foldl_min_of_le xs x hx]

/-- On a nonempty ascending-sorted list, Python's `max` is the last
element. -/
theorem listMax_sorted (l : List ℚ) (hs : l.Sorted (· ≤ ·)) (hne : l ≠ []) :
    listMax l = l.getLastD 0 := by
  induction l with
  | nil => cases hne rfl
  | cons x xs ih =>
    cases xs with
    | nil => simp [listMax]
    | cons y ys =>
      have hxy : x ≤ y :=
        (List.sorted_cons.mp hs).1 y (List.mem_cons_self y ys)
      have hs' : (y :: ys).Sorted (· ≤ ·) := (List.sorted_cons.mp hs).2
      have hshift : listMax (x :: y :: ys) = listMax (y :: ys) := by
        simp [listMax, List.foldl_cons, max_eq_right hxy]
      rw [hshift, ih hs' (by simp), List.getLastD_cons, List.getLastD_cons,
        List.getLastD_cons]

/-- `_percentile` at `p = 50` computes the conventional median: the middle
element for odd length, the average of the two middle elements for even
length. -/
theorem percentile_fifty (l : List ℚ) (hne : l ≠ []) :
    _percentile l 50 = conventionalMedian l := by
  have hlen0 : ¬ l.length = 0 := fun h => hne (List.length_eq_zero.mp h)
  have hlen1 : 1 ≤ l.length := Nat.one_le_iff_ne_zero.mpr hlen0
  simp only [_percentile, conventionalMedian]
  rw [if_neg hlen0, if_neg (by norm_num : ¬ (50 : ℚ) ≤ 0),
    if_neg (by norm_num : ¬ (100 : ℚ) ≤ 50)]
  rcases Nat.even_or_odd l.length with he | ho
  · obtain ⟨k, hk⟩ := he
    have hk1 : 1 ≤ k := by omega
    have hidx : (50 : ℚ) / 100 * ((l.length : ℚ) - 1)
        = (1 / 2 : ℚ) + ((k : ℤ) - 1 : ℤ) := by
      rw [hk]; push_cast; ring
    have hfl : ⌊(50 : ℚ) / 100 * ((l.length : ℚ) - 1)⌋ = (k : ℤ) - 1 := by
      rw [hidx, Int.floor_add_int]
      norm_num
    have hcl : ⌈(50 : ℚ) / 100 * ((l.length : ℚ) - 1)⌉ = (k : ℤ) := by
      rw [hidx, Int.ceil_add_int]
      have hhalf : ⌈(1 / 2 : ℚ)⌉ = 1 := by rw [Int.ceil_eq_iff]; norm_num
      omega
    have hfr : Int.fract ((50 : ℚ) / 100 * ((l.length : ℚ) - 1))
        = 1 / 2 := by
      rw [hidx, Int.fract_add_int, Int.fract]
      norm_num
    rw [hfl, hcl, hfr, if_neg (by omega)]
    have ht1 : ((k : ℤ) - 1).toNat = k - 1 := by omega
    have ht2 : ((k : ℤ)).toNat = k := by omega
    rw [ht1, ht2, if_neg (by omega : ¬ l.length % 2 = 1),
      (by omega : l.length / 2 = k)]
    ring
  · obtain ⟨k, hk⟩ := ho
    have hidx : (50 : ℚ) / 100 * ((l.length : ℚ) - 1) = ((k : ℤ) : ℚ) := by
      rw [hk]; push_cast; ring
    rw [hidx, Int.floor_intCast, Int.ceil_intCast, if_pos rfl,
      (by omega : ((k : ℤ)).toNat = k), if_pos (by omega : l.length % 2 = 1),
      (by omega : l.length / 2 = k)]

/-- C2: for every non-empty ascending-sorted RTT list, `_percentile`
returns the minimum for `p ≤ 0`, the maximum for `p ≥ 100`, the linear
interpolation between `floor(index)` and `ceil(index)` at rank index
`(p/100)*(n-1)` weighted by the fractional part otherwise, and at `p = 50`
the conventional median for both even- and odd-length lists. -/
theorem percentile_clamp_interpolate_median (l : List ℚ) (p : ℚ)
    (hne : l ≠ []) (hsorted : l.Sorted (· ≤ ·)) :
    (p ≤ 0 → _percentile l p = listMin l)
    ∧ (100 ≤ p → _percentile l p = listMax l)
    ∧ _percentile l 50 = conventionalMedian l
    ∧ (0 < p → p < 100 →
        _percentile l p
          = l.getD (⌊p / 100 * ((l.length : ℚ) - 1)⌋).toNat 0
              * (1 - Int.fract (p / 100 * ((l.length : ℚ) - 1)))
            + l.getD (⌈p / 100 * ((l.length : ℚ) - 1)⌉).toNat 0
              * Int.fract (p / 100 * ((l.length : ℚ) - 1))) := by
  have hlen0 : ¬ l.length = 0 := fun h => hne (List.length_eq_zero.mp h)
  refine ⟨fun hp => ?_, fun hp => ?_, percentile_fifty l hne,
    fun hp0 hp100 => ?_⟩
  · simp only [_percentile]
    rw [if_neg hlen0, if_pos hp]
    exact (listMin_sorted l hsorted hne).symm
  · simp only [_percentile]
    rw [if_neg hlen0, if_neg (by linarith : ¬ p ≤ 0), if_pos hp]
    exact (listMax_sorted l hsorted hne).symm
  · simp only [_percentile]
    rw [if_neg hlen0, if_neg (by linarith : ¬ p ≤ 0),
      if_neg (by linarith : ¬ 100 ≤ p)]
    by_cases heq : ⌊p / 100 * ((l.length : ℚ) - 1)⌋
        = ⌈p / 100 * ((l.length : ℚ) - 1)⌉
    · rw [if_pos heq]
      have hint : p / 100 * ((l.length : ℚ) - 1)
          = (⌊p / 100 * ((l.length : ℚ) - 1)⌋ : ℚ) :=
        le_antisymm (by rw [heq]; exact Int.le_ceil _) (Int.floor_le _)
      have hfr : Int.fract (p / 100 * ((l.length : ℚ) - 1)) = 0 := by
        rw [Int.fract, hint]
        simp
      rw [hfr, ← heq]
      ring
    · rw [if_neg heq]

/-- Witness for C2 at the sorted list `[1, 2, 3]`, clamped at `p = 0` and
at the median. -/
theorem percentile_clamp_interpolate_median_witness :
    ([1, 2, 3] : List ℚ) ≠ []
    ∧ ([1, 2, 3] : List ℚ).Sorted (· ≤ ·)
    ∧ _percentile [1, 2, 3] 0 = listMin [1, 2, 3]
    ∧ _percentile [1, 2, 3] 50 = conventionalMedian [1, 2, 3] := by
  refine ⟨by simp, by norm_num [List.sorted_cons], ?_, ?_⟩
  · exact (percentile_clamp_interpolate_median [1, 2, 3] 0 (by simp)
      (by norm_num [List.sorted_cons])).1 le_rfl
  · exact (percentile_clamp_interpolate_median [1, 2, 3] 50 (by simp)
      (by norm_num [List.sorted_cons])).2.2.1

end VoiceRtcBench
